import Mathlib

/-!
# The input-mapping dialog (`es-core/src/guis/GuiInputConfig.cpp`)

A shallow embedding of the dialog's binding session: the static action table, the per-row
input handler, `update`, `rowDone`, `assign`, `clearAssignment` and the OK button with its
yes/no prompt.  Member functions become pure functions on an explicit dialog state.

The device configuration (`InputConfig`), the physical input descriptor (`Input`) and the row
list (`ComponentList`) are declared outside `GuiInputConfig.cpp`; they are modelled from the
specification and every such definition says so in its doc comment.

`int` values (`mHeldTime`, `deltaTime`) are embedded in `Int`; the one addition of the source,
`mHeldTime += deltaTime`, is reduced to the 32-bit range by `wrapInt`, so that a sum outside
the range of `int` wraps around as it does on the usual targets.  `/` on `int` truncates towards
zero and is embedded as `Int.tdiv`.
-/

namespace EmulationStation

/-! ## Collaborators declared outside the source file -/

/-- Modelled from the spec: the kind of a physical input ("input type (key/button/axis)").
The enumeration is declared with `Input`, outside the sources. -/
inductive InputType
  | TYPE_AXIS
  | TYPE_BUTTON
  | TYPE_KEY
  deriving DecidableEq, Repr

/-- Modelled from the spec: the device id of the keyboard ("device = keyboard").  The constant is
declared outside the sources; no theorem depends on its numeric value. -/
def DEVICE_KEYBOARD : Int := -1

/-- Modelled from the spec: a physical input, "device id, input type (key/button/axis), input id,
directional value, a configured flag".  The field order is the one of the constructor call
`Input(DEVICE_KEYBOARD, TYPE_KEY, 0, 1, true)` in the OK button. -/
structure Input where
  device : Int
  type : InputType
  id : Int
  value : Int
  configured : Bool
  deriving DecidableEq, Repr

/-- Modelled from the spec: when a stored descriptor `chk` is a binding of the physical input
`input`.  A physical input is identified by device id, input type, input id and directional
value; a stored descriptor counts as a binding once its configured flag is set (the flag `assign`
sets right before it stores a descriptor). -/
def Input.sameInput (chk input : Input) : Bool :=
  chk.configured && chk.device == input.device && chk.type == input.type
    && chk.id == input.id && chk.value == input.value

/-- Modelled from the spec: action identifiers are compared without regard to letter case (the
row handler looks up `"a"` for the action the table lists as `"A"`). -/
def toLower (s : String) : String := ⟨s.data.map Char.toLower⟩

/-- Modelled from the spec: the "Device Mapping", which "associates action identifiers to physical
input descriptors for one device".  It is kept as an association list in which the first entry of
a key is the binding of that key.  The class `InputConfig` is declared outside the sources. -/
structure InputConfig where
  mNameMap : List (String × Input)
  deriving DecidableEq, Repr

/-- Replace the binding of key `k` in place, or add it at the end when `k` has none. -/
def insertEntry (k : String) (v : Input) : List (String × Input) → List (String × Input)
  | [] => [(k, v)]
  | e :: rest => if e.1 = k then (k, v) :: rest else e :: insertEntry k v rest

/-- The binding stored for key `k`, if any. -/
def lookupEntry (k : String) : List (String × Input) → Option Input
  | [] => none
  | e :: rest => if e.1 = k then some e.2 else lookupEntry k rest

namespace InputConfig

/-- Modelled from the spec: "clear all mappings". -/
def clear (_c : InputConfig) : InputConfig := ⟨[]⟩

/-- Modelled from the spec: "map action X to input". -/
def mapInput (name : String) (input : Input) (c : InputConfig) : InputConfig :=
  ⟨insertEntry (toLower name) input c.mNameMap⟩

/-- Modelled from the spec: "unmap action X". -/
def unmapInput (name : String) (c : InputConfig) : InputConfig :=
  ⟨c.mNameMap.filter (fun e => e.1 ≠ toLower name)⟩

/-- Modelled from the spec: "has a mapping for action X" and "get mapping for action X"; `none` is
the `false` return of the C++ member, `some input` the `true` return with the out-parameter. -/
def getInputByName (name : String) (c : InputConfig) : Option Input :=
  lookupEntry (toLower name) c.mNameMap

/-- Modelled from the spec: whether action `name` is bound to the physical input `input`. -/
def isMappedTo (name : String) (input : Input) (c : InputConfig) : Bool :=
  match c.getInputByName name with
  | some comp => comp.sameInput input
  | none => false

/-- Modelled from the spec: the identifiers of the actions that `input` is bound to.  The dialog
only tests whether the result is empty, so the order of the result is immaterial. -/
def getMappedTo (input : Input) (c : InputConfig) : List String :=
  (c.mNameMap.filter (fun e => e.2.sameInput input)).map Prod.fst

end InputConfig

/-! ## The action table -/

/-- One row of the static action table. -/
structure InputConfigStructure where
  name : String
  skippable : Bool
  dispName : String
  icon : String
  deriving DecidableEq, Repr

/-- Number of rows of the dialog. -/
def inputCount : Nat := 25

/-- The static action table. -/
def GUI_INPUT_CONFIG_LIST : List InputConfigStructure :=
  [ ⟨"Up",               false, "D-Pad Up",           ":/help/dpad_up.svg"⟩,
    ⟨"Down",             false, "D-Pad Down",         ":/help/dpad_down.svg"⟩,
    ⟨"Left",             false, "D-Pad Left",         ":/help/dpad_left.svg"⟩,
    ⟨"Right",            false, "D-Pad Right",        ":/help/dpad_right.svg"⟩,
    ⟨"Start",            true,  "Start",              ":/help/button_start.svg"⟩,
    ⟨"Select",           true,  "Select",             ":/help/button_select.svg"⟩,
    ⟨"A",                false, "Button South",       ":/help/buttons_south.png"⟩,
    ⟨"B",                true,  "Button East",        ":/help/buttons_east.png"⟩,
    ⟨"X",                true,  "Button North",       ":/help/buttons_north.png"⟩,
    ⟨"Y",                true,  "Button West",        ":/help/buttons_west.png"⟩,
    ⟨"LeftShoulder",     true,  "Left Shoulder",      ":/help/button_l.svg"⟩,
    ⟨"RightShoulder",    true,  "Right Shoulder",     ":/help/button_r.svg"⟩,
    ⟨"LeftTrigger",      true,  "Left Trigger",       ":/help/button_lt.svg"⟩,
    ⟨"RightTrigger",     true,  "Right Trigger",      ":/help/button_rt.svg"⟩,
    ⟨"LeftThumb",        true,  "Left Thumb",         ":/help/analog_thumb.svg"⟩,
    ⟨"RightThumb",       true,  "Right Thumb",        ":/help/analog_thumb.svg"⟩,
    ⟨"LeftAnalogUp",     true,  "Left Analog Up",     ":/help/analog_up.svg"⟩,
    ⟨"LeftAnalogDown",   true,  "Left Analog Down",   ":/help/analog_down.svg"⟩,
    ⟨"LeftAnalogLeft",   true,  "Left Analog Left",   ":/help/analog_left.svg"⟩,
    ⟨"LeftAnalogRight",  true,  "Left Analog Right",  ":/help/analog_right.svg"⟩,
    ⟨"RightAnalogUp",    true,  "Right Analog Up",    ":/help/analog_up.svg"⟩,
    ⟨"RightAnalogDown",  true,  "Right Analog Down",  ":/help/analog_down.svg"⟩,
    ⟨"RightAnalogLeft",  true,  "Right Analog Left",  ":/help/analog_left.svg"⟩,
    ⟨"RightAnalogRight", true,  "Right Analog Right", ":/help/analog_right.svg"⟩,
    ⟨"HotKeyEnable",     true,  "Menu Button",        ":/help/button_hotkey.svg"⟩ ]

/-- The table access `GUI_INPUT_CONFIG_LIST[i]`.  An index outside the table is undefined
behaviour in C++; the embedding returns an entry with an empty name that is not skippable. -/
def entry (i : Nat) : InputConfigStructure :=
  GUI_INPUT_CONFIG_LIST.getD i ⟨"", false, "", ""⟩

/-- The hold time, in milliseconds, after which a skippable row is skipped. -/
def HOLD_TO_SKIP_MS : Int := 1000

/-- The largest value of a 32-bit `int`. -/
def INT_MAX : Int := 2147483647

/-- The value a 32-bit `int` holds after an arithmetic result `x`: `x` itself when it lies in
`[-2147483648, 2147483647]`, and its two's-complement wrap-around otherwise. -/
def wrapInt (x : Int) : Int := (x + 2147483648) % 4294967296 - 2147483648

/-! ## Dialog state -/

/-- What the right-hand text of a row shows: the texts set by `setPress`, `setNotDefined`,
`setAssignedTo`, `error` and by the countdown branch of `update`. -/
inductive MappingText
  /-- Text "Press anything". -/
  | pressAnything
  /-- Text "-Not defined-". -/
  | notDefined
  /-- The upper-cased description of the input. -/
  | assignedTo (input : Input)
  /-- Text "Already taken". -/
  | alreadyTaken
  /-- Text "Hold for Ns to skip" with `N = secs`. -/
  | holdFor (secs : Int)
  deriving DecidableEq, Repr

/-- The members of the dialog that the binding session reads and writes.  `mTargetConfig` is the
identity of the target device configuration (the pointer) and `target` the object it points
to.  `cursor` is the cursor of the row list `mList`; `gridOnButtons` records that the grid cursor
was moved from the list to the button row. -/
structure GuiInputConfig where
  mTargetConfig : Nat
  target : InputConfig
  mConfiguringRow : Bool
  mConfiguringAll : Bool
  mHoldingInput : Bool
  mHeldInput : Input
  mHeldTime : Int
  mHeldInputId : Nat
  mMappings : List MappingText
  cursor : Nat
  gridOnButtons : Bool
  deriving DecidableEq, Repr

namespace GuiInputConfig

/-- The call `setPress(mMappings.at(i))`. -/
def setPress (i : Nat) (s : GuiInputConfig) : GuiInputConfig :=
  { s with mMappings := s.mMappings.set i .pressAnything }

/-- The call `setNotDefined(mMappings.at(i))`. -/
def setNotDefined (i : Nat) (s : GuiInputConfig) : GuiInputConfig :=
  { s with mMappings := s.mMappings.set i .notDefined }

/-- The call `setAssignedTo(mMappings.at(i), input)`. -/
def setAssignedTo (i : Nat) (input : Input) (s : GuiInputConfig) : GuiInputConfig :=
  { s with mMappings := s.mMappings.set i (.assignedTo input) }

/-- The call `error(mMappings.at(i), msg)`; the message is ignored by the source. -/
def error (i : Nat) (s : GuiInputConfig) : GuiInputConfig :=
  { s with mMappings := s.mMappings.set i .alreadyTaken }

/-- Modelled from the spec: `mList->moveCursor(1)` of the row list, declared outside the
sources: it moves to the next row and reports success, or reports failure "if no next row
exists". -/
def moveCursor (s : GuiInputConfig) : Bool × GuiInputConfig :=
  if s.cursor + 1 < inputCount then (true, { s with cursor := s.cursor + 1 }) else (false, s)

/-- The member `rowDone`: move the cursor to the next row when configuring all rows, or leave
configure mode. -/
def rowDone (s : GuiInputConfig) : GuiInputConfig :=
  if s.mConfiguringAll then
    match moveCursor s with
    | (false, s1) =>
      { s1 with mConfiguringAll := false, mConfiguringRow := false, gridOnButtons := true }
    | (true, s1) => setPress s1.cursor s1
  else
    { s with mConfiguringRow := false }

/-- The member `assign`: the result is the returned flag and the state after the call. -/
def assign (input : Input) (inputId : Nat) (s : GuiInputConfig) : Bool × GuiInputConfig :=
  if (s.target.getMappedTo input).length > 0
      ∧ s.target.isMappedTo (entry inputId).name input = false
      ∧ (entry inputId).name ≠ "HotKeyEnable" then
    (false, error inputId s)
  else
    let s1 := setAssignedTo inputId input s
    let input1 := { input with configured := true }
    (true, { s1 with target := s1.target.mapInput (entry inputId).name input1 })

/-- The member `clearAssignment`. -/
def clearAssignment (inputId : Nat) (s : GuiInputConfig) : GuiInputConfig :=
  { s with target := s.target.unmapInput (entry inputId).name }

/-- The closure `row.input_handler` of row `i`, called with the device configuration `config`
(its identity) the event comes from and the event `input`.  The result is the returned flag
(event consumed) and the state after the call.  `mList->stopScrolling()` has no effect on the
members modelled here. -/
def inputHandler (i : Nat) (config : Nat) (input : Input) (s : GuiInputConfig) :
    Bool × GuiInputConfig :=
  if config ≠ s.mTargetConfig then
    (false, s)
  else if s.mConfiguringRow = false then
    if s.target.isMappedTo "a" input = true ∧ input.value ≠ 0 then
      (true, setPress i { s with mConfiguringRow := true })
    else
      (false, s)
  else if input.value ≠ 0 then
    if s.mHoldingInput then
      (true, s)
    else
      (true, { s with mHoldingInput := true, mHeldInput := input, mHeldTime := 0,
                      mHeldInputId := i })
  else
    if s.mHoldingInput = false ∨ s.mHeldInput.device ≠ input.device
        ∨ s.mHeldInput.id ≠ input.id ∨ s.mHeldInput.type ≠ input.type then
      (true, s)
    else
      let s1 := { s with mHoldingInput := false }
      match assign s1.mHeldInput i s1 with
      | (true, s2) => (true, rowDone s2)
      | (false, s2) => (true, s2)

/-- The member `update`.  The sum `mHeldTime += deltaTime` is an `int` sum and is reduced to 32
bits by `wrapInt`. -/
def update (deltaTime : Int) (s : GuiInputConfig) : GuiInputConfig :=
  if s.mConfiguringRow = true ∧ s.mHoldingInput = true
      ∧ (entry s.mHeldInputId).skippable = true then
    let prevSec := s.mHeldTime.tdiv 1000
    let s1 := { s with mHeldTime := wrapInt (s.mHeldTime + deltaTime) }
    let curSec := s1.mHeldTime.tdiv 1000
    if s1.mHeldTime ≥ HOLD_TO_SKIP_MS then
      let s2 := setNotDefined s1.mHeldInputId s1
      let s3 := clearAssignment s2.mHeldInputId s2
      rowDone { s3 with mHoldingInput := false }
    else if prevSec ≠ curSec then
      let text := MappingText.holdFor (HOLD_TO_SKIP_MS.tdiv 1000 - curSec)
      { s1 with mMappings := s1.mMappings.set s1.mHeldInputId text }
    else
      s1
  else
    s

/-- The constructor.  `mHeldInput`, `mHeldTime` and `mHeldInputId` are not initialised by the
source, so their initial values are arguments. -/
def init (mTargetConfig : Nat) (target : InputConfig) (reconfigureAll : Bool)
    (heldInput : Input) (heldTime : Int) (heldInputId : Nat) : GuiInputConfig :=
  let s : GuiInputConfig :=
    { mTargetConfig := mTargetConfig
      target := if reconfigureAll then target.clear else target
      mConfiguringRow := reconfigureAll
      mConfiguringAll := reconfigureAll
      mHoldingInput := false
      mHeldInput := heldInput
      mHeldTime := heldTime
      mHeldInputId := heldInputId
      mMappings := List.replicate inputCount .notDefined
      cursor := 0
      gridOnButtons := false }
  if s.mConfiguringAll then setPress 0 s else s

/-! ### The OK button -/

/-- The closure `okFunction`: the result is the configuration handed to `writeDeviceConfig`. -/
def okFunction (s : GuiInputConfig) : InputConfig := s.target

/-- What pressing OK does: open the yes/no prompt (nothing is written), or write. -/
inductive OkResult
  | msgBox
  | saved (written : InputConfig)
  deriving DecidableEq, Repr

/-- The closure of the OK button. -/
def okPressed (s : GuiInputConfig) : OkResult :=
  match s.target.getInputByName "HotKeyEnable" with
  | none => .msgBox
  | some _ => .saved (okFunction s)

/-- The closure of the YES answer.  `dflt` is the value of the default-constructed local
`Input input;`, whose constructor is declared outside the sources; the lookup of `"Select"`
overwrites it only when Select has a binding. -/
def msgBoxYes (dflt : Input) (s : GuiInputConfig) : InputConfig :=
  let input := (s.target.getInputByName "Select").getD dflt
  okFunction { s with target := s.target.mapInput "HotKeyEnable" input }

/-- The closure of the NO answer. -/
def msgBoxNo (s : GuiInputConfig) : InputConfig :=
  let input : Input := ⟨DEVICE_KEYBOARD, .TYPE_KEY, 0, 1, true⟩
  okFunction { s with target := s.target.mapInput "HotKeyEnable" input }

/-! ### Runs of the dialog -/

/-- What the host loop delivers to the dialog.  An input event is handed to the handler of a
row; the row list, which is outside the sources, may also move its cursor when a handler declines
an event, and `scroll` admits any such move. -/
inductive Event
  | input (row : Nat) (config : Nat) (input : Input)
  | tick (deltaTime : Int)
  | scroll (row : Nat)
  deriving DecidableEq, Repr

/-- One event. -/
def step (s : GuiInputConfig) : Event → GuiInputConfig
  | .input row config input => (inputHandler row config input s).2
  | .tick deltaTime => update deltaTime s
  | .scroll row => if row < inputCount then { s with cursor := row } else s

/-- A sequence of events. -/
def run (s : GuiInputConfig) (es : List Event) : GuiInputConfig := es.foldl step s

/-- A sequence of `update` calls with the given frame times and no input event in between. -/
def ticks (s : GuiInputConfig) (ds : List Int) : GuiInputConfig :=
  ds.foldl (fun st d => update d st) s

/-- The state right after the timed skip of the held row, the hold time having reached `t`. -/
def skipped (t : Int) (s : GuiInputConfig) : GuiInputConfig :=
  rowDone { s with
    mHeldTime := t
    mHoldingInput := false
    target := s.target.unmapInput (entry s.mHeldInputId).name
    mMappings := s.mMappings.set s.mHeldInputId .notDefined }

end GuiInputConfig

/-! ## Properties of a mapping and of a run -/

/-- No input is bound to two different actions, unless one of the two is HotKeyEnable. -/
def InputConfig.Unique (c : InputConfig) : Prop :=
  ∀ (n1 n2 : String) (input : Input),
    c.isMappedTo n1 input = true → c.isMappedTo n2 input = true →
    toLower n1 = toLower n2 ∨ toLower n1 = toLower "HotKeyEnable"
      ∨ toLower n2 = toLower "HotKeyEnable"

/-- An event that is not an `update` call with a negative frame time. -/
def GuiInputConfig.Event.nonNegative : GuiInputConfig.Event → Bool
  | .tick deltaTime => decide (0 ≤ deltaTime)
  | _ => true

/-- No `update` call of the run overflows the `int` sum `mHeldTime + deltaTime`: whenever a call
adds to the hold time (its guard holds), the sum is the value the `int` holds afterwards. -/
def GuiInputConfig.noOverflow (s : GuiInputConfig) : List GuiInputConfig.Event → Bool
  | [] => true
  | e :: es =>
    (match e with
      | .tick deltaTime =>
        !(s.mConfiguringRow && s.mHoldingInput && (entry s.mHeldInputId).skippable)
          || decide (wrapInt (s.mHeldTime + deltaTime) = s.mHeldTime + deltaTime)
      | _ => true)
    && noOverflow (GuiInputConfig.step s e) es

/-- While an input is held the hold time is in `[0, 1000)`, and no row shows the countdown
text. -/
def GuiInputConfig.HeldBelowThreshold (s : GuiInputConfig) : Prop :=
  (s.mHoldingInput = true → 0 ≤ s.mHeldTime ∧ s.mHeldTime < HOLD_TO_SKIP_MS)
  ∧ ∀ n, MappingText.holdFor n ∉ s.mMappings

/-! ## Concrete values used to evaluate the definitions -/

/-- A button of gamepad 0, as an input-down event. -/
def buttonDown (id : Int) : Input := ⟨0, .TYPE_BUTTON, id, 1, false⟩

/-- The same button, as an input-up event. -/
def buttonUp (id : Int) : Input := ⟨0, .TYPE_BUTTON, id, 0, false⟩

/-- A freshly opened dialog in configure-all mode (target configuration at address 7). -/
def freshAll : GuiInputConfig :=
  GuiInputConfig.init 7 ⟨[]⟩ true (buttonDown 0) 0 0

/-- A dialog in configure-all mode in which button `id` is held on row `row`, the cursor being
on that row. -/
def holding (row : Nat) (id : Int) : GuiInputConfig :=
  { freshAll with mHoldingInput := true, mHeldInput := buttonDown id, mHeldTime := 0,
                  mHeldInputId := row, cursor := row }

/-- A configure-all session in which the user binds the five required rows (Up, Down, Left,
Right, A) to buttons 0 to 4 and skips every other row by holding button 9 for a second. -/
def requiredOnly : List GuiInputConfig.Event :=
  [ .input 0 7 (buttonDown 0), .input 0 7 (buttonUp 0),
    .input 1 7 (buttonDown 1), .input 1 7 (buttonUp 1),
    .input 2 7 (buttonDown 2), .input 2 7 (buttonUp 2),
    .input 3 7 (buttonDown 3), .input 3 7 (buttonUp 3),
    .input 4 7 (buttonDown 9), .tick 1000,
    .input 5 7 (buttonDown 9), .tick 1000,
    .input 6 7 (buttonDown 4), .input 6 7 (buttonUp 4) ]
  ++ (List.range 18).flatMap fun k => [ .input (k + 7) 7 (buttonDown 9), .tick 1000 ]

end EmulationStation

namespace EmulationStation
open GuiInputConfig

/-! ## Facts about the association list -/

theorem lookupEntry_insertEntry_self (k : String) (v : Input) (l : List (String × Input)) :
    lookupEntry k (insertEntry k v l) = some v := by
  induction l with
  | nil => simp [insertEntry, lookupEntry]
  | cons e rest ih =>
    by_cases h : e.1 = k
    · simp [insertEntry, lookupEntry, h]
    · simp [insertEntry, lookupEntry, h, ih]

theorem lookupEntry_insertEntry_ne (k k2 : String) (v : Input) (l : List (String × Input))
    (hne : k2 ≠ k) : lookupEntry k2 (insertEntry k v l) = lookupEntry k2 l := by
  induction l with
  | nil => simp [insertEntry, lookupEntry, Ne.symm hne]
  | cons e rest ih =>
    obtain ⟨a, b⟩ := e
    by_cases h : a = k
    · have h2 : a ≠ k2 := fun h3 => hne (h3.symm.trans h)
      simp [insertEntry, lookupEntry, h, h2, Ne.symm hne]
    · by_cases h2 : a = k2
      · subst h2
        simp [insertEntry, lookupEntry, h]
      · simp [insertEntry, lookupEntry, h, h2, ih]

theorem insertEntry_of_lookupEntry (k : String) (v : Input) (l : List (String × Input))
    (h : lookupEntry k l = some v) : insertEntry k v l = l := by
  induction l with
  | nil => simp [lookupEntry] at h
  | cons e rest ih =>
    by_cases hk : e.1 = k
    · simp [lookupEntry, hk] at h
      simp only [insertEntry, hk, if_true]
      rw [← hk, ← h]
    · simp [lookupEntry, hk] at h
      simp [insertEntry, hk, ih h]

theorem lookupEntry_mem (k : String) (v : Input) (l : List (String × Input))
    (h : lookupEntry k l = some v) : (k, v) ∈ l := by
  induction l with
  | nil => simp [lookupEntry] at h
  | cons e rest ih =>
    by_cases hk : e.1 = k
    · simp [lookupEntry, hk] at h
      have : e = (k, v) := by rw [← hk, ← h]
      simp [this]
    · simp [lookupEntry, hk] at h
      exact List.mem_cons_of_mem _ (ih h)

theorem lookupEntry_filter_self (k : String) (l : List (String × Input)) :
    lookupEntry k (l.filter (fun e => e.1 ≠ k)) = none := by
  induction l with
  | nil => simp [lookupEntry]
  | cons e rest ih =>
    obtain ⟨a, b⟩ := e
    by_cases hk : a = k
    · rw [List.filter_cons_of_neg (by simp [hk])]
      exact ih
    · rw [List.filter_cons_of_pos (by simp [hk])]
      simp only [lookupEntry, hk, if_false]
      exact ih

theorem lookupEntry_filter_ne (k k2 : String) (l : List (String × Input)) (hne : k2 ≠ k) :
    lookupEntry k2 (l.filter (fun e => e.1 ≠ k)) = lookupEntry k2 l := by
  induction l with
  | nil => simp [lookupEntry]
  | cons e rest ih =>
    obtain ⟨a, b⟩ := e
    by_cases hk : a = k
    · have h2 : a ≠ k2 := fun h3 => hne (h3.symm.trans hk)
      rw [List.filter_cons_of_neg (by simp [hk])]
      simp only [lookupEntry, h2, if_false]
      exact ih
    · rw [List.filter_cons_of_pos (by simp [hk])]
      by_cases h2 : a = k2
      · simp only [lookupEntry, h2, if_true]
      · simp only [lookupEntry, h2, if_false]
        exact ih

/-! ## Facts about the device configuration -/

theorem Input.sameInput_iff (chk input : Input) :
    chk.sameInput input = true ↔ chk = { input with configured := true } := by
  cases chk; cases input
  simp [Input.sameInput]
  tauto

theorem Input.sameInput_configured (input : Input) :
    Input.sameInput { input with configured := true } input = true := by
  rw [Input.sameInput_iff]

namespace InputConfig

theorem getInputByName_mapInput_self (name : String) (input : Input) (c : InputConfig) :
    (c.mapInput name input).getInputByName name = some input := by
  simp [mapInput, getInputByName, lookupEntry_insertEntry_self]

theorem getInputByName_mapInput_ne (name name2 : String) (input : Input) (c : InputConfig)
    (hne : toLower name2 ≠ toLower name) :
    (c.mapInput name input).getInputByName name2 = c.getInputByName name2 := by
  simp [mapInput, getInputByName, lookupEntry_insertEntry_ne _ _ _ _ hne]

theorem getInputByName_unmapInput_self (name : String) (c : InputConfig) :
    (c.unmapInput name).getInputByName name = none := by
  simp only [unmapInput, getInputByName]
  exact lookupEntry_filter_self _ _

theorem getInputByName_unmapInput_ne (name name2 : String) (c : InputConfig)
    (hne : toLower name2 ≠ toLower name) :
    (c.unmapInput name).getInputByName name2 = c.getInputByName name2 := by
  simp only [unmapInput, getInputByName]
  exact lookupEntry_filter_ne _ _ _ hne

theorem isMappedTo_iff (name : String) (input : Input) (c : InputConfig) :
    c.isMappedTo name input = true ↔
      c.getInputByName name = some { input with configured := true } := by
  unfold isMappedTo
  cases h : c.getInputByName name with
  | none => simp
  | some comp => simp [Input.sameInput_iff]

theorem mapInput_of_isMappedTo (name : String) (input : Input) (c : InputConfig)
    (h : c.isMappedTo name input = true) :
    c.mapInput name { input with configured := true } = c := by
  rw [isMappedTo_iff] at h
  cases c with
  | mk l =>
    simp only [mapInput]
    congr 1
    exact insertEntry_of_lookupEntry _ _ _ h

theorem isMappedTo_of_getMappedTo_nil (name : String) (input : Input) (c : InputConfig)
    (h : c.getMappedTo input = []) : c.isMappedTo name input = false := by
  cases hb : c.isMappedTo name input with
  | false => rfl
  | true =>
    exfalso
    rw [isMappedTo_iff] at hb
    have hmem := lookupEntry_mem _ _ _ hb
    have : toLower name ∈ c.getMappedTo input := by
      simp only [getMappedTo, List.mem_map, List.mem_filter]
      exact ⟨_, ⟨hmem, Input.sameInput_configured input⟩, rfl⟩
    rw [h] at this
    simp at this

theorem getMappedTo_ne_nil_of_isMappedTo (name : String) (input : Input) (c : InputConfig)
    (hb : c.isMappedTo name input = true) : c.getMappedTo input ≠ [] := by
  intro h
  rw [isMappedTo_of_getMappedTo_nil name input c h] at hb
  simp at hb

end InputConfig

end EmulationStation

namespace EmulationStation
open GuiInputConfig

/-! ## Facts about the action table -/

theorem entry_name_hotkey :
    ∀ i, i < inputCount → ((entry i).name = "HotKeyEnable" ↔ i = 24) := by
  decide

theorem entry_key_hotkey :
    ∀ i, i < inputCount → (toLower (entry i).name = toLower "HotKeyEnable" ↔ i = 24) := by
  decide

theorem entry_key_injective :
    ∀ i, i < inputCount → ∀ j, j < inputCount →
      toLower (entry i).name = toLower (entry j).name → i = j := by
  decide

theorem entry_not_skippable :
    ∀ i, i < inputCount →
      ((entry i).skippable = false ↔ (entry i).name ∈ ["Up", "Down", "Left", "Right", "A"]) := by
  decide

theorem entry_skippable_lt (i : Nat) (h : (entry i).skippable = true) : i < inputCount := by
  by_contra hge
  have hlen : GUI_INPUT_CONFIG_LIST.length ≤ i := by
    have : GUI_INPUT_CONFIG_LIST.length = 25 := by decide
    simp only [inputCount] at hge
    omega
  simp [entry, List.getD, List.getElem?_eq_none hlen] at h

end EmulationStation

namespace EmulationStation
open GuiInputConfig

/-! ## The member `assign` -/

theorem assign_of_free (input : Input) (inputId : Nat) (s : GuiInputConfig)
    (h : s.target.getMappedTo input = []) :
    assign input inputId s =
      (true, { setAssignedTo inputId input s with
                target := s.target.mapInput (entry inputId).name
                  { input with configured := true } }) := by
  simp [assign, h, setAssignedTo]

theorem assign_of_mapped (input : Input) (inputId : Nat) (s : GuiInputConfig)
    (h : s.target.isMappedTo (entry inputId).name input = true) :
    assign input inputId s =
      (true, { setAssignedTo inputId input s with
                target := s.target.mapInput (entry inputId).name
                  { input with configured := true } }) := by
  simp [assign, h, setAssignedTo]

theorem assign_of_hotkey (input : Input) (inputId : Nat) (s : GuiInputConfig)
    (h : (entry inputId).name = "HotKeyEnable") :
    assign input inputId s =
      (true, { setAssignedTo inputId input s with
                target := s.target.mapInput (entry inputId).name
                  { input with configured := true } }) := by
  simp [assign, h, setAssignedTo]

theorem assign_of_taken (input : Input) (inputId : Nat) (s : GuiInputConfig)
    (h1 : s.target.getMappedTo input ≠ [])
    (h2 : s.target.isMappedTo (entry inputId).name input = false)
    (h3 : (entry inputId).name ≠ "HotKeyEnable") :
    assign input inputId s = (false, error inputId s) := by
  have : 0 < (s.target.getMappedTo input).length := List.length_pos.mpr h1
  simp [assign, h2, h3, this]

theorem assign_true_isMappedTo (input : Input) (inputId : Nat) (s : GuiInputConfig)
    (h : (assign input inputId s).1 = true) :
    (assign input inputId s).2.target.isMappedTo (entry inputId).name input = true := by
  unfold assign at h ⊢
  split
  · rename_i hc
    simp [hc] at h
  · simp [InputConfig.isMappedTo_iff, setAssignedTo, InputConfig.getInputByName_mapInput_self]

/-- C1 (as amended): starting from a mapping in which no action is bound to the input, binding it
to an action A other than HotKeyEnable succeeds, and a following attempt to bind it to a
different action B that is not HotKeyEnable either returns false, shows "Already taken" on row B
and leaves the whole mapping as it was, A still being bound to the input. -/
theorem assign_taken_rejected (s : GuiInputConfig) (input : Input) (a b : Nat)
    (ha : a < inputCount) (hb : b < inputCount)
    (_hA : (entry a).name ≠ "HotKeyEnable") (hB : (entry b).name ≠ "HotKeyEnable")
    (hab : b ≠ a) (hrows : s.mMappings.length = inputCount)
    (hfree : s.target.getMappedTo input = []) :
    (assign input a s).1 = true
    ∧ (assign input b (assign input a s).2).1 = false
    ∧ (assign input b (assign input a s).2).2.mMappings[b]? = some MappingText.alreadyTaken
    ∧ (assign input b (assign input a s).2).2.target = (assign input a s).2.target
    ∧ (assign input b (assign input a s).2).2.target.isMappedTo (entry a).name input = true := by
  have h1 : (assign input a s).1 = true := by rw [assign_of_free input a s hfree]
  have hA2 := assign_true_isMappedTo input a s h1
  have hne : toLower (entry b).name ≠ toLower (entry a).name :=
    fun h => hab (entry_key_injective b hb a ha h)
  have hB2 : (assign input a s).2.target.isMappedTo (entry b).name input = false := by
    rw [assign_of_free input a s hfree]
    have h0 := InputConfig.isMappedTo_of_getMappedTo_nil (entry b).name input s.target hfree
    unfold InputConfig.isMappedTo at h0 ⊢
    simp only [setAssignedTo]
    rw [InputConfig.getInputByName_mapInput_ne _ _ _ _ hne]
    exact h0
  have hT := InputConfig.getMappedTo_ne_nil_of_isMappedTo _ _ _ hA2
  have h2 := assign_of_taken input b (assign input a s).2 hT hB2 hB
  have hlen : (assign input a s).2.mMappings.length = inputCount := by
    rw [assign_of_free input a s hfree]
    simp [setAssignedTo, hrows]
  refine ⟨h1, ?_, ?_, ?_, ?_⟩
  · rw [h2]
  · rw [h2]
    simp [error, List.getElem?_set, hlen, hb]
  · rw [h2]
    rfl
  · rw [h2]
    exact hA2

/-- Evaluation of `assign_taken_rejected` on a fresh dialog: Up, then Down, with button 3. -/
theorem assign_taken_rejected_witness :
    (assign (buttonDown 3) 0 freshAll).1 = true
    ∧ (assign (buttonDown 3) 1 (assign (buttonDown 3) 0 freshAll).2).1 = false
    ∧ (assign (buttonDown 3) 1 (assign (buttonDown 3) 0 freshAll).2).2.mMappings[1]?
        = some MappingText.alreadyTaken
    ∧ (assign (buttonDown 3) 1 (assign (buttonDown 3) 0 freshAll).2).2.target
        = (assign (buttonDown 3) 0 freshAll).2.target
    ∧ (assign (buttonDown 3) 1 (assign (buttonDown 3) 0 freshAll).2).2.target.isMappedTo
        (entry 0).name (buttonDown 3) = true :=
  assign_taken_rejected freshAll (buttonDown 3) 0 1 (by decide) (by decide) (by decide)
    (by decide) (by decide) (by decide) (by decide)

/-- C1 (as stated) fails when B is HotKeyEnable: on a fresh dialog, after button 3 is bound to
Up (row 0), binding it to HotKeyEnable (row 24) returns true and changes the binding of
HotKeyEnable. -/
theorem assign_hotkey_accepts_taken :
    (entry 0).name ≠ "HotKeyEnable" ∧ (24 : Nat) ≠ 0
    ∧ freshAll.target.getMappedTo (buttonDown 3) = []
    ∧ (assign (buttonDown 3) 0 freshAll).1 = true
    ∧ (assign (buttonDown 3) 24 (assign (buttonDown 3) 0 freshAll).2).1 = true
    ∧ (assign (buttonDown 3) 0 freshAll).2.target.getInputByName (entry 24).name = none
    ∧ (assign (buttonDown 3) 24 (assign (buttonDown 3) 0 freshAll).2).2.target.getInputByName
        (entry 24).name = some { buttonDown 3 with configured := true } := by
  decide

/-- C2: when action A is already bound to the input, `assign` returns true and leaves the mapping
as it was; in particular, after a successful `assign` of the input to A, a second `assign` of the
same input to A succeeds too and changes nothing in the mapping. -/
theorem assign_rebind_idempotent (s : GuiInputConfig) (input : Input) (a : Nat) :
    (s.target.isMappedTo (entry a).name input = true →
      (assign input a s).1 = true ∧ (assign input a s).2.target = s.target)
    ∧ ((assign input a s).1 = true →
      (assign input a (assign input a s).2).1 = true
      ∧ (assign input a (assign input a s).2).2.target = (assign input a s).2.target) := by
  have key : ∀ t : GuiInputConfig, t.target.isMappedTo (entry a).name input = true →
      (assign input a t).1 = true ∧ (assign input a t).2.target = t.target := by
    intro t ht
    rw [assign_of_mapped input a t ht]
    exact ⟨rfl, InputConfig.mapInput_of_isMappedTo _ _ _ ht⟩
  exact ⟨key s, fun h => key _ (assign_true_isMappedTo input a s h)⟩

/-- Evaluation of `assign_rebind_idempotent`: button 3 is bound to Up twice on a fresh dialog. -/
theorem assign_rebind_idempotent_witness :
    ((assign (buttonDown 3) 0 freshAll).2.target.isMappedTo (entry 0).name (buttonDown 3) = true
      ∧ (assign (buttonDown 3) 0 freshAll).1 = true)
    ∧ ((assign (buttonDown 3) 0 (assign (buttonDown 3) 0 freshAll).2).1 = true
      ∧ (assign (buttonDown 3) 0 (assign (buttonDown 3) 0 freshAll).2).2.target
          = (assign (buttonDown 3) 0 freshAll).2.target)
    ∧ ((assign (buttonDown 3) 0 (assign (buttonDown 3) 0 freshAll).2).1 = true
      ∧ (assign (buttonDown 3) 0 (assign (buttonDown 3) 0 freshAll).2).2.target
          = (assign (buttonDown 3) 0 freshAll).2.target) :=
  ⟨⟨by decide, by decide⟩,
   (assign_rebind_idempotent (assign (buttonDown 3) 0 freshAll).2 (buttonDown 3) 0).1
     (by decide),
   (assign_rebind_idempotent freshAll (buttonDown 3) 0).2 (by decide)⟩

end EmulationStation

namespace EmulationStation
open GuiInputConfig

/-! ## The row input handler -/

theorem inputHandler_of_other_config (i : Nat) (config : Nat) (input : Input)
    (s : GuiInputConfig) (h : config ≠ s.mTargetConfig) :
    inputHandler i config input s = (false, s) := by
  simp [inputHandler, h]

/-- C8: an input event whose device configuration is not the target configuration is not
consumed by the row handler and leaves the whole dialog state, the mapping included,
unchanged. -/
theorem inputHandler_other_device (i : Nat) (config : Nat) (input : Input) (s : GuiInputConfig)
    (h : config ≠ s.mTargetConfig) :
    (inputHandler i config input s).1 = false ∧ (inputHandler i config input s).2 = s := by
  rw [inputHandler_of_other_config i config input s h]
  exact ⟨rfl, rfl⟩

/-- Evaluation of `inputHandler_other_device`: the target configuration is at address 7, the
event comes from the configuration at address 8. -/
theorem inputHandler_other_device_witness :
    (8 : Nat) ≠ (holding 4 3).mTargetConfig
    ∧ (inputHandler 4 8 (buttonUp 3) (holding 4 3)).1 = false
    ∧ (inputHandler 4 8 (buttonUp 3) (holding 4 3)).2 = holding 4 3 :=
  ⟨by decide, inputHandler_other_device 4 8 (buttonUp 3) (holding 4 3) (by decide)⟩

theorem inputHandler_holding_cases (i : Nat) (config : Nat) (input : Input)
    (s : GuiInputConfig) (hcfg : s.mConfiguringRow = true) (hhold : s.mHoldingInput = true)
    (htarget : config = s.mTargetConfig) :
    (input.value ≠ 0 → inputHandler i config input s = (true, s))
    ∧ (input.value = 0 →
        (s.mHeldInput.device ≠ input.device ∨ s.mHeldInput.id ≠ input.id
          ∨ s.mHeldInput.type ≠ input.type) →
        inputHandler i config input s = (true, s))
    ∧ (input.value = 0 → s.mHeldInput.device = input.device → s.mHeldInput.id = input.id →
        s.mHeldInput.type = input.type →
        inputHandler i config input s =
          (true,
            if (assign s.mHeldInput i { s with mHoldingInput := false }).1 = true then
              rowDone (assign s.mHeldInput i { s with mHoldingInput := false }).2
            else (assign s.mHeldInput i { s with mHoldingInput := false }).2)) := by
  refine ⟨?_, ?_, ?_⟩
  · intro hv
    simp [inputHandler, htarget, hcfg, hhold, hv]
  · intro hv hdiff
    simp only [inputHandler, htarget, hcfg, hhold, hv]
    simp [hdiff]
  · intro hv hd hi ht
    unfold inputHandler
    rw [if_neg (by simp [htarget]), if_neg (by simp [hcfg]), if_neg (by simp [hv]),
      if_neg (by simp [hhold, hd, hi, ht])]
    dsimp only
    generalize assign s.mHeldInput i { s with mHoldingInput := false } = p
    rcases p with ⟨_ | _, s2⟩ <;> simp

/-- C9: while an input H is held during capture, every input-down event of the target device and
every input-up event that differs from H in device, id or type is consumed and leaves the whole
dialog state unchanged; the input-up event that matches H in device, id and type stops the hold
and runs `assign` of H to the row, followed by `rowDone` when `assign` succeeds. -/
theorem inputHandler_while_holding (i : Nat) (config : Nat) (input : Input)
    (s : GuiInputConfig) (hcfg : s.mConfiguringRow = true) (hhold : s.mHoldingInput = true)
    (htarget : config = s.mTargetConfig) :
    (input.value ≠ 0 → inputHandler i config input s = (true, s))
    ∧ (input.value = 0 →
        (s.mHeldInput.device ≠ input.device ∨ s.mHeldInput.id ≠ input.id
          ∨ s.mHeldInput.type ≠ input.type) →
        inputHandler i config input s = (true, s))
    ∧ (input.value = 0 → s.mHeldInput.device = input.device → s.mHeldInput.id = input.id →
        s.mHeldInput.type = input.type →
        inputHandler i config input s =
          (true,
            if (assign s.mHeldInput i { s with mHoldingInput := false }).1 = true then
              rowDone (assign s.mHeldInput i { s with mHoldingInput := false }).2
            else (assign s.mHeldInput i { s with mHoldingInput := false }).2)) :=
  inputHandler_holding_cases i config input s hcfg hhold htarget

/-- Evaluation of `inputHandler_while_holding`: button 3 is held on row 4 (Start). -/
theorem inputHandler_while_holding_witness :
    inputHandler 4 7 (buttonDown 5) (holding 4 3) = (true, holding 4 3)
    ∧ inputHandler 4 7 (buttonUp 5) (holding 4 3) = (true, holding 4 3)
    ∧ inputHandler 4 7 (buttonUp 3) (holding 4 3) =
        (true,
          if (assign (holding 4 3).mHeldInput 4
                { holding 4 3 with mHoldingInput := false }).1 = true then
            rowDone (assign (holding 4 3).mHeldInput 4
                { holding 4 3 with mHoldingInput := false }).2
          else (assign (holding 4 3).mHeldInput 4
                { holding 4 3 with mHoldingInput := false }).2) :=
  ⟨(inputHandler_while_holding 4 7 (buttonDown 5) (holding 4 3) (by decide) (by decide)
      (by decide)).1 (by decide),
   (inputHandler_while_holding 4 7 (buttonUp 5) (holding 4 3) (by decide) (by decide)
      (by decide)).2.1 (by decide) (by decide),
   (inputHandler_while_holding 4 7 (buttonUp 3) (holding 4 3) (by decide) (by decide)
      (by decide)).2.2 (by decide) (by decide) (by decide) (by decide)⟩

/-! ## The member `update` -/

theorem update_of_not_skippable (deltaTime : Int) (s : GuiInputConfig)
    (h : (entry s.mHeldInputId).skippable = false) : update deltaTime s = s := by
  simp [update, h]

theorem update_of_not_holding (deltaTime : Int) (s : GuiInputConfig)
    (h : s.mHoldingInput = false) : update deltaTime s = s := by
  simp [update, h]

theorem ticks_of_not_skippable (ds : List Int) (s : GuiInputConfig)
    (h : (entry s.mHeldInputId).skippable = false) : ticks s ds = s := by
  induction ds with
  | nil => rfl
  | cons d rest ih =>
    simp only [ticks, List.foldl_cons] at ih ⊢
    rw [update_of_not_skippable d s h]
    exact ih

theorem ticks_of_not_holding (ds : List Int) (s : GuiInputConfig)
    (h : s.mHoldingInput = false) : ticks s ds = s := by
  induction ds with
  | nil => rfl
  | cons d rest ih =>
    simp only [ticks, List.foldl_cons] at ih ⊢
    rw [update_of_not_holding d s h]
    exact ih

/-- C4: while the held input targets a non-skippable row (these are exactly Up, Down, Left, Right
and A), no sequence of `update` calls, whatever the frame times, changes anything in the dialog
state; an input event changes the state only if it is the input-up event of the target device
that matches the held input in device, id and type. -/
theorem update_never_skips_required_row (s : GuiInputConfig) (ds : List Int)
    (hcfg : s.mConfiguringRow = true) (hhold : s.mHoldingInput = true)
    (hrow : s.mHeldInputId < inputCount)
    (hns : (entry s.mHeldInputId).skippable = false) :
    (entry s.mHeldInputId).name ∈ ["Up", "Down", "Left", "Right", "A"]
    ∧ ticks s ds = s
    ∧ ∀ (i config : Nat) (input : Input), (inputHandler i config input s).2 ≠ s →
        config = s.mTargetConfig ∧ input.value = 0 ∧ s.mHeldInput.device = input.device
          ∧ s.mHeldInput.id = input.id ∧ s.mHeldInput.type = input.type := by
  refine ⟨(entry_not_skippable _ hrow).mp hns, ticks_of_not_skippable ds s hns, ?_⟩
  intro i config input hchg
  by_cases htarget : config = s.mTargetConfig
  · have hall := inputHandler_holding_cases i config input s hcfg hhold htarget
    by_cases hv : input.value = 0
    · by_cases hd : s.mHeldInput.device = input.device
      · by_cases hi : s.mHeldInput.id = input.id
        · by_cases ht : s.mHeldInput.type = input.type
          · exact ⟨htarget, hv, hd, hi, ht⟩
          · rw [hall.2.1 hv (Or.inr (Or.inr ht))] at hchg
            exact absurd rfl hchg
        · rw [hall.2.1 hv (Or.inr (Or.inl hi))] at hchg
          exact absurd rfl hchg
      · rw [hall.2.1 hv (Or.inl hd)] at hchg
        exact absurd rfl hchg
    · rw [hall.1 hv] at hchg
      exact absurd rfl hchg
  · rw [inputHandler_of_other_config i config input s htarget] at hchg
    exact absurd rfl hchg

/-- Evaluation of `update_never_skips_required_row`: button 3 is held on row 6 (A) for 5 s. -/
theorem update_never_skips_required_row_witness :
    (entry (holding 6 3).mHeldInputId).skippable = false
    ∧ ticks (holding 6 3) [1000, 1000, 3000] = holding 6 3
    ∧ (inputHandler 6 7 (buttonUp 3) (holding 6 3)).2 ≠ holding 6 3 :=
  ⟨by decide,
   (update_never_skips_required_row (holding 6 3) [1000, 1000, 3000] (by decide) (by decide)
      (by decide) (by decide)).2.1,
   by decide⟩

end EmulationStation

namespace EmulationStation
open GuiInputConfig

/-! ## The timed skip -/

theorem rowDone_eq (s : GuiInputConfig) :
    rowDone s =
      if s.mConfiguringAll = true then
        if s.cursor + 1 < inputCount then
          { s with cursor := s.cursor + 1
                   mMappings := s.mMappings.set (s.cursor + 1) .pressAnything }
        else
          { s with mConfiguringAll := false, mConfiguringRow := false, gridOnButtons := true }
      else
        { s with mConfiguringRow := false } := by
  by_cases hall : s.mConfiguringAll = true
  · by_cases hnext : s.cursor + 1 < inputCount
    · simp [rowDone, moveCursor, setPress, hall, hnext]
    · simp [rowDone, moveCursor, hall, hnext]
  · simp [rowDone, hall]

theorem rowDone_mHoldingInput (s : GuiInputConfig) :
    (rowDone s).mHoldingInput = s.mHoldingInput := by
  rw [rowDone_eq]
  split_ifs <;> rfl

theorem rowDone_target (s : GuiInputConfig) : (rowDone s).target = s.target := by
  rw [rowDone_eq]
  split_ifs <;> rfl

theorem rowDone_all_next (s : GuiInputConfig) (hall : s.mConfiguringAll = true)
    (hnext : s.cursor + 1 < inputCount) :
    (rowDone s).cursor = s.cursor + 1 ∧ (rowDone s).mConfiguringAll = true
      ∧ (rowDone s).mConfiguringRow = s.mConfiguringRow := by
  simp [rowDone, moveCursor, setPress, hall, hnext]

theorem rowDone_all_last (s : GuiInputConfig) (hall : s.mConfiguringAll = true)
    (hlast : ¬ s.cursor + 1 < inputCount) :
    (rowDone s).cursor = s.cursor ∧ (rowDone s).mConfiguringAll = false
      ∧ (rowDone s).mConfiguringRow = false := by
  simp [rowDone, moveCursor, hall, hlast]

theorem rowDone_single (s : GuiInputConfig) (hall : s.mConfiguringAll = false) :
    (rowDone s).cursor = s.cursor ∧ (rowDone s).mConfiguringAll = false
      ∧ (rowDone s).mConfiguringRow = false := by
  simp [rowDone, hall]

theorem wrapInt_of_inRange (x : Int) (h0 : -2147483648 ≤ x) (h1 : x ≤ INT_MAX) :
    wrapInt x = x := by
  simp only [INT_MAX] at h1
  unfold wrapInt
  omega

theorem update_skip (deltaTime : Int) (s : GuiInputConfig)
    (hcfg : s.mConfiguringRow = true) (hhold : s.mHoldingInput = true)
    (hskip : (entry s.mHeldInputId).skippable = true)
    (hge : HOLD_TO_SKIP_MS ≤ wrapInt (s.mHeldTime + deltaTime)) :
    update deltaTime s = skipped (wrapInt (s.mHeldTime + deltaTime)) s := by
  simp [update, hcfg, hhold, hskip, hge, skipped, setNotDefined, clearAssignment]

theorem tdiv_thousand_eq_zero (x : Int) (h0 : 0 ≤ x) (h1 : x < 1000) : x.tdiv 1000 = 0 := by
  rw [Int.tdiv_eq_ediv h0 (by norm_num)]
  exact Int.ediv_eq_zero_of_lt h0 h1

theorem update_no_skip (deltaTime : Int) (s : GuiInputConfig)
    (hcfg : s.mConfiguringRow = true) (hhold : s.mHoldingInput = true)
    (hskip : (entry s.mHeldInputId).skippable = true)
    (h0 : 0 ≤ s.mHeldTime) (hd : 0 ≤ deltaTime) (hlt : s.mHeldTime + deltaTime < 1000) :
    update deltaTime s = { s with mHeldTime := s.mHeldTime + deltaTime } := by
  have hw : wrapInt (s.mHeldTime + deltaTime) = s.mHeldTime + deltaTime :=
    wrapInt_of_inRange _ (by omega) (by simp only [INT_MAX]; omega)
  have hp : s.mHeldTime.tdiv 1000 = 0 := tdiv_thousand_eq_zero _ h0 (by omega)
  have hc : (s.mHeldTime + deltaTime).tdiv 1000 = 0 :=
    tdiv_thousand_eq_zero _ (by omega) hlt
  have hnot : ¬ (1000 ≤ s.mHeldTime + deltaTime) := by omega
  simp [update, hcfg, hhold, hskip, HOLD_TO_SKIP_MS, hw, hnot, hp, hc]

theorem ticks_skip (ds : List Int) :
    ∀ s : GuiInputConfig, s.mConfiguringRow = true → s.mHoldingInput = true →
      (entry s.mHeldInputId).skippable = true → 0 ≤ s.mHeldTime → s.mHeldTime < 1000 →
      (∀ d ∈ ds, (0 : Int) ≤ d) → 1000 ≤ s.mHeldTime + ds.sum →
      (∀ n, n < ds.length → s.mHeldTime + (ds.take n).sum < 1000 →
        s.mHeldTime + (ds.take (n + 1)).sum ≤ INT_MAX) →
      ∃ t, 1000 ≤ t ∧ ticks s ds = skipped t s := by
  induction ds with
  | nil =>
    intro s _ _ _ _ hlt _ hsum _
    simp at hsum
    omega
  | cons d rest ih =>
    intro s hcfg hhold hskip h0 hlt hnn hsum hfit
    have hd : 0 ≤ d := hnn d (List.mem_cons_self _ _)
    have hfit0 : s.mHeldTime + d ≤ INT_MAX := by
      have := hfit 0 (by simp) (by simpa using hlt)
      simpa using this
    have hw : wrapInt (s.mHeldTime + d) = s.mHeldTime + d :=
      wrapInt_of_inRange _ (by omega) hfit0
    by_cases hge : 1000 ≤ s.mHeldTime + d
    · refine ⟨s.mHeldTime + d, hge, ?_⟩
      simp only [ticks, List.foldl_cons]
      rw [update_skip d s hcfg hhold hskip (by rw [hw]; exact hge), hw]
      apply ticks_of_not_holding
      simp [skipped, rowDone_mHoldingInput]
    · have hstep := update_no_skip d s hcfg hhold hskip h0 hd (by omega)
      have hsum2 : 1000 ≤ (s.mHeldTime + d) + rest.sum := by
        simp only [List.sum_cons] at hsum
        omega
      have hfit2 : ∀ n, n < rest.length → (s.mHeldTime + d) + (rest.take n).sum < 1000 →
          (s.mHeldTime + d) + (rest.take (n + 1)).sum ≤ INT_MAX := by
        intro n hn hlt2
        have := hfit (n + 1) (by simpa using hn)
          (by simp only [List.take_succ_cons, List.sum_cons]; omega)
        simp only [List.take_succ_cons, List.sum_cons] at this
        omega
      obtain ⟨t, ht, heq⟩ := ih { s with mHeldTime := s.mHeldTime + d } hcfg hhold hskip
        (by show 0 ≤ s.mHeldTime + d; omega) (by show s.mHeldTime + d < 1000; omega)
        (fun x hx => hnn x (List.mem_cons_of_mem _ hx)) hsum2 hfit2
      refine ⟨t, ht, ?_⟩
      simp only [ticks, List.foldl_cons]
      rw [hstep]
      exact heq

/-- C3 (as amended): when an input has just been pressed on a skippable row (hold time 0) during
capture, any sequence of `update` calls with non-negative frame times that sum to at least
1000 ms, with no input event in between and with no overflow of the `int` hold time (whenever
the frame times so far sum to less than 1000, adding the next one stays at most 2147483647),
ends in the state reached by one timed skip: the binding of the row's action is removed, the
bindings of all other actions are as before, no input is held, and `rowDone` has run once (next
row in configure-all mode, configuring ended on the last row or in single-row mode). -/
theorem hold_to_skip (s : GuiInputConfig) (ds : List Int)
    (hcfg : s.mConfiguringRow = true) (hhold : s.mHoldingInput = true)
    (htime : s.mHeldTime = 0) (hskip : (entry s.mHeldInputId).skippable = true)
    (hnn : ∀ d ∈ ds, (0 : Int) ≤ d) (hsum : 1000 ≤ ds.sum)
    (hfit : ∀ n, n < ds.length → (ds.take n).sum < 1000 →
      (ds.take (n + 1)).sum ≤ INT_MAX) :
    (∃ t, 1000 ≤ t ∧ ticks s ds = skipped t s)
    ∧ (ticks s ds).target.getInputByName (entry s.mHeldInputId).name = none
    ∧ (∀ name, toLower name ≠ toLower (entry s.mHeldInputId).name →
        (ticks s ds).target.getInputByName name = s.target.getInputByName name)
    ∧ (ticks s ds).mHoldingInput = false
    ∧ (s.mConfiguringAll = true → s.cursor + 1 < inputCount →
        (ticks s ds).cursor = s.cursor + 1 ∧ (ticks s ds).mConfiguringAll = true
          ∧ (ticks s ds).mConfiguringRow = true)
    ∧ (s.mConfiguringAll = true → ¬ s.cursor + 1 < inputCount →
        (ticks s ds).cursor = s.cursor ∧ (ticks s ds).mConfiguringAll = false
          ∧ (ticks s ds).mConfiguringRow = false)
    ∧ (s.mConfiguringAll = false →
        (ticks s ds).cursor = s.cursor ∧ (ticks s ds).mConfiguringAll = false
          ∧ (ticks s ds).mConfiguringRow = false) := by
  obtain ⟨t, ht, heq⟩ := ticks_skip ds s hcfg hhold hskip (by omega) (by omega) hnn
    (by omega) (by rw [htime]; simpa using hfit)
  refine ⟨⟨t, ht, heq⟩, ?_, ?_, ?_, ?_, ?_, ?_⟩
  · rw [heq, skipped, rowDone_target]
    exact InputConfig.getInputByName_unmapInput_self _ _
  · intro name hne
    rw [heq, skipped, rowDone_target]
    exact InputConfig.getInputByName_unmapInput_ne _ _ _ hne
  · rw [heq, skipped, rowDone_mHoldingInput]
  · intro hall hnext
    rw [heq, skipped]
    have := rowDone_all_next { s with
      mHeldTime := t
      mHoldingInput := false
      target := s.target.unmapInput (entry s.mHeldInputId).name
      mMappings := s.mMappings.set s.mHeldInputId .notDefined } hall hnext
    exact ⟨this.1, this.2.1, this.2.2.trans hcfg⟩
  · intro hall hlast
    rw [heq, skipped]
    exact rowDone_all_last _ hall hlast
  · intro hall
    rw [heq, skipped]
    exact rowDone_single _ hall

/-- Evaluation of `hold_to_skip`: button 3 is held on row 4 (Start) over four frames. -/
theorem hold_to_skip_witness :
    (entry (holding 4 3).mHeldInputId).skippable = true
    ∧ ticks (holding 4 3) [400, 400, 400, 16] = skipped 1200 (holding 4 3)
    ∧ (ticks (holding 4 3) [400, 400, 400, 16]).mHoldingInput = false
    ∧ (ticks (holding 4 3) [400, 400, 400, 16]).cursor = 5 :=
  ⟨by decide, by decide,
   (hold_to_skip (holding 4 3) [400, 400, 400, 16] (by decide) (by decide) (by decide)
      (by decide) (by decide) (by decide) (by decide)).2.2.2.1,
   by decide⟩

/-- C3 (as stated) fails when the `int` hold time overflows: button 3 is pressed on row 4
(Start, skippable) and held over the frames 1 ms and 2147483647 ms.  The frame times are
non-negative and sum to more than 1000, yet after them the input is still held, the hold time
is -2147483648 and the cursor is still on row 4. -/
theorem hold_to_skip_overflow :
    (holding 4 3).mConfiguringRow = true ∧ (holding 4 3).mHoldingInput = true
    ∧ (holding 4 3).mHeldTime = 0 ∧ (entry (holding 4 3).mHeldInputId).skippable = true
    ∧ (∀ d ∈ [(1 : Int), 2147483647], 0 ≤ d) ∧ (1000 : Int) ≤ [(1 : Int), 2147483647].sum
    ∧ (ticks (holding 4 3) [1, 2147483647]).mHoldingInput = true
    ∧ (ticks (holding 4 3) [1, 2147483647]).mHeldTime = -2147483648
    ∧ (ticks (holding 4 3) [1, 2147483647]).cursor = 4 := by
  decide

end EmulationStation

namespace EmulationStation
open GuiInputConfig

/-! ## Completing a row -/

theorem assign_frame (input : Input) (i : Nat) (s : GuiInputConfig) :
    (assign input i s).2.cursor = s.cursor
    ∧ (assign input i s).2.mConfiguringAll = s.mConfiguringAll
    ∧ (assign input i s).2.mConfiguringRow = s.mConfiguringRow
    ∧ (assign input i s).2.mHoldingInput = s.mHoldingInput
    ∧ (assign input i s).2.mHeldTime = s.mHeldTime := by
  unfold assign
  split <;> simp [error, setAssignedTo]

theorem inputHandler_release (i : Nat) (input : Input) (s : GuiInputConfig)
    (hcfg : s.mConfiguringRow = true) (hhold : s.mHoldingInput = true)
    (hv : input.value = 0) (hd : s.mHeldInput.device = input.device)
    (hi : s.mHeldInput.id = input.id) (ht : s.mHeldInput.type = input.type)
    (hok : (assign s.mHeldInput i { s with mHoldingInput := false }).1 = true) :
    inputHandler i s.mTargetConfig input s =
      (true, rowDone (assign s.mHeldInput i { s with mHoldingInput := false }).2) := by
  rw [(inputHandler_holding_cases i s.mTargetConfig input s hcfg hhold rfl).2.2 hv hd hi ht,
    if_pos hok]

/-- C5: in configure-all mode the table has 25 rows, the last one being HotKeyEnable.  With the
cursor on the last row, the release of the held input always binds it (HotKeyEnable accepts any
input) and completes the row, and so does the timed skip; both leave the configure-all flag and
the configuring-row flag false and the cursor on the last row.  With the cursor on an earlier
row, completing the row (a release whose `assign` succeeds, or the timed skip of a skippable row)
moves the cursor to the next row and keeps both flags true.  The timed skip is the `update` call
whose test `mHeldTime >= HOLD_TO_SKIP_MS` succeeds on the `int` hold time. -/
theorem configure_all_completion (s : GuiInputConfig) (input : Input) (deltaTime : Int)
    (hall : s.mConfiguringAll = true) (hcfg : s.mConfiguringRow = true)
    (hhold : s.mHoldingInput = true) :
    (GUI_INPUT_CONFIG_LIST.length = 25 ∧ (entry (inputCount - 1)).name = "HotKeyEnable")
    ∧ (s.cursor = inputCount - 1 → input.value = 0 → s.mHeldInput.device = input.device →
        s.mHeldInput.id = input.id → s.mHeldInput.type = input.type →
        (assign s.mHeldInput s.cursor { s with mHoldingInput := false }).1 = true
        ∧ (inputHandler s.cursor s.mTargetConfig input s).2.target.isMappedTo
            "HotKeyEnable" s.mHeldInput = true
        ∧ (inputHandler s.cursor s.mTargetConfig input s).2.mConfiguringAll = false
        ∧ (inputHandler s.cursor s.mTargetConfig input s).2.mConfiguringRow = false
        ∧ (inputHandler s.cursor s.mTargetConfig input s).2.cursor = s.cursor)
    ∧ (s.cursor = inputCount - 1 → s.mHeldInputId = s.cursor →
        HOLD_TO_SKIP_MS ≤ wrapInt (s.mHeldTime + deltaTime) →
        (update deltaTime s).mConfiguringAll = false
        ∧ (update deltaTime s).mConfiguringRow = false
        ∧ (update deltaTime s).cursor = s.cursor)
    ∧ (s.cursor + 1 < inputCount → input.value = 0 → s.mHeldInput.device = input.device →
        s.mHeldInput.id = input.id → s.mHeldInput.type = input.type →
        (assign s.mHeldInput s.cursor { s with mHoldingInput := false }).1 = true →
        (inputHandler s.cursor s.mTargetConfig input s).2.cursor = s.cursor + 1
        ∧ (inputHandler s.cursor s.mTargetConfig input s).2.mConfiguringAll = true
        ∧ (inputHandler s.cursor s.mTargetConfig input s).2.mConfiguringRow = true)
    ∧ (s.cursor + 1 < inputCount → s.mHeldInputId = s.cursor →
        (entry s.cursor).skippable = true →
        HOLD_TO_SKIP_MS ≤ wrapInt (s.mHeldTime + deltaTime) →
        (update deltaTime s).cursor = s.cursor + 1
        ∧ (update deltaTime s).mConfiguringAll = true
        ∧ (update deltaTime s).mConfiguringRow = true) := by
  refine ⟨⟨by decide, by decide⟩, ?_, ?_, ?_, ?_⟩
  · intro hlast hv hd hi ht
    have hname : (entry s.cursor).name = "HotKeyEnable" := by rw [hlast]; decide
    have hok : (assign s.mHeldInput s.cursor { s with mHoldingInput := false }).1 = true := by
      rw [assign_of_hotkey _ _ _ hname]
    have hfr := assign_frame s.mHeldInput s.cursor { s with mHoldingInput := false }
    have hnot : ¬ (assign s.mHeldInput s.cursor { s with mHoldingInput := false }).2.cursor + 1
        < inputCount := by
      rw [hfr.1]
      show ¬ s.cursor + 1 < inputCount
      rw [hlast]; decide
    have hdone := rowDone_all_last _ (hfr.2.1.trans hall) hnot
    rw [inputHandler_release s.cursor input s hcfg hhold hv hd hi ht hok]
    refine ⟨hok, ?_, hdone.2.1, hdone.2.2, hdone.1.trans hfr.1⟩
    rw [rowDone_target]
    have := assign_true_isMappedTo _ _ _ hok
    rw [hname] at this
    exact this
  · intro hlast hid hge
    have hskip : (entry s.mHeldInputId).skippable = true := by rw [hid, hlast]; decide
    rw [update_skip deltaTime s hcfg hhold hskip hge, skipped]
    have hnot : ¬ s.cursor + 1 < inputCount := by rw [hlast]; decide
    have := rowDone_all_last { s with
      mHeldTime := wrapInt (s.mHeldTime + deltaTime)
      mHoldingInput := false
      target := s.target.unmapInput (entry s.mHeldInputId).name
      mMappings := s.mMappings.set s.mHeldInputId .notDefined } hall hnot
    exact ⟨this.2.1, this.2.2, this.1⟩
  · intro hnext hv hd hi ht hok
    have hfr := assign_frame s.mHeldInput s.cursor { s with mHoldingInput := false }
    have hnext2 : (assign s.mHeldInput s.cursor { s with mHoldingInput := false }).2.cursor + 1
        < inputCount := by
      rw [hfr.1]
      exact hnext
    have hdone := rowDone_all_next _ (hfr.2.1.trans hall) hnext2
    rw [inputHandler_release s.cursor input s hcfg hhold hv hd hi ht hok]
    exact ⟨hdone.1.trans (by rw [hfr.1]), hdone.2.1, hdone.2.2.trans (hfr.2.2.1.trans hcfg)⟩
  · intro hnext hid hskip hge
    have hskip2 : (entry s.mHeldInputId).skippable = true := by rw [hid]; exact hskip
    rw [update_skip deltaTime s hcfg hhold hskip2 hge, skipped]
    have := rowDone_all_next { s with
      mHeldTime := wrapInt (s.mHeldTime + deltaTime)
      mHoldingInput := false
      target := s.target.unmapInput (entry s.mHeldInputId).name
      mMappings := s.mMappings.set s.mHeldInputId .notDefined } hall hnext
    exact ⟨this.1, this.2.1, this.2.2.trans hcfg⟩

/-- Evaluation of `configure_all_completion`: button 3 held on the last row (24) is released,
or held for a second; button 3 held on row 4 is released, or held for a second. -/
theorem configure_all_completion_witness :
    ((inputHandler 24 7 (buttonUp 3) (holding 24 3)).2.mConfiguringAll = false
      ∧ (inputHandler 24 7 (buttonUp 3) (holding 24 3)).2.mConfiguringRow = false
      ∧ (inputHandler 24 7 (buttonUp 3) (holding 24 3)).2.cursor = 24)
    ∧ ((update 1000 (holding 24 3)).mConfiguringAll = false
      ∧ (update 1000 (holding 24 3)).mConfiguringRow = false
      ∧ (update 1000 (holding 24 3)).cursor = 24)
    ∧ ((inputHandler 4 7 (buttonUp 3) (holding 4 3)).2.cursor = 5
      ∧ (inputHandler 4 7 (buttonUp 3) (holding 4 3)).2.mConfiguringAll = true
      ∧ (inputHandler 4 7 (buttonUp 3) (holding 4 3)).2.mConfiguringRow = true)
    ∧ ((update 1000 (holding 4 3)).cursor = 5
      ∧ (update 1000 (holding 4 3)).mConfiguringAll = true
      ∧ (update 1000 (holding 4 3)).mConfiguringRow = true) :=
  ⟨((configure_all_completion (holding 24 3) (buttonUp 3) 1000 (by decide) (by decide)
      (by decide)).2.1 (by decide) (by decide) (by decide) (by decide) (by decide)).2.2,
   (configure_all_completion (holding 24 3) (buttonUp 3) 1000 (by decide) (by decide)
      (by decide)).2.2.1 (by decide) (by decide) (by decide),
   (configure_all_completion (holding 4 3) (buttonUp 3) 1000 (by decide) (by decide)
      (by decide)).2.2.2.1 (by decide) (by decide) (by decide) (by decide) (by decide)
      (by decide),
   (configure_all_completion (holding 4 3) (buttonUp 3) 1000 (by decide) (by decide)
      (by decide)).2.2.2.2 (by decide) (by decide) (by decide) (by decide)⟩

end EmulationStation

namespace EmulationStation
open GuiInputConfig

/-! ## The OK button -/

theorem okPressed_of_unbound (s : GuiInputConfig)
    (h : s.target.getInputByName "HotKeyEnable" = none) : okPressed s = OkResult.msgBox := by
  simp [okPressed, h]

theorem okPressed_of_bound (s : GuiInputConfig) (v : Input)
    (h : s.target.getInputByName "HotKeyEnable" = some v) :
    okPressed s = OkResult.saved s.target := by
  simp [okPressed, h, okFunction]

theorem msgBoxYes_of_select_bound (dflt v : Input) (s : GuiInputConfig)
    (h : s.target.getInputByName "Select" = some v) :
    (msgBoxYes dflt s).getInputByName "HotKeyEnable" = some v
    ∧ ∀ name, toLower name ≠ toLower "HotKeyEnable" →
        (msgBoxYes dflt s).getInputByName name = s.target.getInputByName name := by
  simp only [msgBoxYes, okFunction, h, Option.getD_some]
  exact ⟨InputConfig.getInputByName_mapInput_self _ _ _,
    fun name hne => InputConfig.getInputByName_mapInput_ne _ _ _ _ hne⟩

theorem msgBoxYes_of_select_unbound (dflt : Input) (s : GuiInputConfig)
    (h : s.target.getInputByName "Select" = none) :
    (msgBoxYes dflt s).getInputByName "HotKeyEnable" = some dflt
    ∧ ∀ name, toLower name ≠ toLower "HotKeyEnable" →
        (msgBoxYes dflt s).getInputByName name = s.target.getInputByName name := by
  simp only [msgBoxYes, okFunction, h, Option.getD_none]
  exact ⟨InputConfig.getInputByName_mapInput_self _ _ _,
    fun name hne => InputConfig.getInputByName_mapInput_ne _ _ _ _ hne⟩

theorem msgBoxNo_sentinel (s : GuiInputConfig) :
    (msgBoxNo s).getInputByName "HotKeyEnable"
      = some ⟨DEVICE_KEYBOARD, InputType.TYPE_KEY, 0, 1, true⟩
    ∧ ∀ name, toLower name ≠ toLower "HotKeyEnable" →
        (msgBoxNo s).getInputByName name = s.target.getInputByName name := by
  simp only [msgBoxNo, okFunction]
  exact ⟨InputConfig.getInputByName_mapInput_self _ _ _,
    fun name hne => InputConfig.getInputByName_mapInput_ne _ _ _ _ hne⟩

set_option maxRecDepth 20000 in
theorem requiredOnly_target :
    (run freshAll requiredOnly).target =
      ⟨[("up", ⟨0, .TYPE_BUTTON, 0, 1, true⟩), ("down", ⟨0, .TYPE_BUTTON, 1, 1, true⟩),
        ("left", ⟨0, .TYPE_BUTTON, 2, 1, true⟩), ("right", ⟨0, .TYPE_BUTTON, 3, 1, true⟩),
        ("a", ⟨0, .TYPE_BUTTON, 4, 1, true⟩)]⟩ := by
  decide

/-- C6 (failing input): after the session `requiredOnly`, in which Select and HotKeyEnable were
both skipped, OK opens the prompt, and the YES answer saves a mapping in which HotKeyEnable has
a binding, the default-constructed descriptor, although Select has none: the failed lookup of
Select is not checked. -/
theorem yes_answer_without_select (dflt : Input) :
    okPressed (run freshAll requiredOnly) = OkResult.msgBox
    ∧ (run freshAll requiredOnly).target.getInputByName "Select" = none
    ∧ (msgBoxYes dflt (run freshAll requiredOnly)).getInputByName "Select" = none
    ∧ (msgBoxYes dflt (run freshAll requiredOnly)).getInputByName "HotKeyEnable"
        = some dflt := by
  have hsel : (run freshAll requiredOnly).target.getInputByName "Select" = none := by
    rw [requiredOnly_target]
    decide
  have hhot : (run freshAll requiredOnly).target.getInputByName "HotKeyEnable" = none := by
    rw [requiredOnly_target]
    decide
  have hyes := msgBoxYes_of_select_unbound dflt (run freshAll requiredOnly) hsel
  refine ⟨okPressed_of_unbound _ hhot, hsel, ?_, hyes.1⟩
  rw [hyes.2 "Select" (by decide)]
  exact hsel

end EmulationStation

namespace EmulationStation
open GuiInputConfig

/-! ## Uniqueness of bindings -/

namespace InputConfig

theorem getInputByName_congr (n m : String) (c : InputConfig) (h : toLower n = toLower m) :
    c.getInputByName n = c.getInputByName m := by
  simp [getInputByName, h]

theorem unique_clear (c : InputConfig) : c.clear.Unique := by
  intro n1 n2 input h1 _
  simp [clear, isMappedTo, getInputByName, lookupEntry] at h1

theorem unique_unmapInput (name : String) (c : InputConfig) (h : c.Unique) :
    (c.unmapInput name).Unique := by
  have key : ∀ (n : String) (input : Input), (c.unmapInput name).isMappedTo n input = true →
      c.isMappedTo n input = true := by
    intro n input hn
    rw [isMappedTo_iff] at hn ⊢
    by_cases hk : toLower n = toLower name
    · rw [getInputByName_congr n name _ hk, getInputByName_unmapInput_self] at hn
      simp at hn
    · rw [getInputByName_unmapInput_ne _ _ _ hk] at hn
      exact hn
  intro n1 n2 input h1 h2
  exact h n1 n2 input (key _ _ h1) (key _ _ h2)

theorem unique_mapInput (name : String) (input : Input) (c : InputConfig) (h : c.Unique)
    (hok : c.getMappedTo input = [] ∨ c.isMappedTo name input = true
      ∨ toLower name = toLower "HotKeyEnable") :
    (c.mapInput name { input with configured := true }).Unique := by
  -- an action other than `name` that is bound to `input` afterwards was bound to it before
  have other : ∀ (n : String) (j : Input), toLower n ≠ toLower name →
      (c.mapInput name { input with configured := true }).isMappedTo n j = true →
      c.isMappedTo n j = true := by
    intro n j hk hn
    rw [isMappedTo_iff] at hn ⊢
    rw [getInputByName_mapInput_ne _ _ _ _ hk] at hn
    exact hn
  -- `name` itself is bound exactly to `input` afterwards
  have self : ∀ (n : String) (j : Input), toLower n = toLower name →
      (c.mapInput name { input with configured := true }).isMappedTo n j = true →
      ({ j with configured := true } : Input) = { input with configured := true } := by
    intro n j hk hn
    rw [isMappedTo_iff, getInputByName_congr n name _ hk, getInputByName_mapInput_self] at hn
    exact (Option.some.inj hn).symm
  -- an action with another key bound to the same input as `name`
  have clash : ∀ (n m : String) (j : Input), toLower n = toLower name →
      toLower m ≠ toLower name →
      (c.mapInput name { input with configured := true }).isMappedTo n j = true →
      (c.mapInput name { input with configured := true }).isMappedTo m j = true →
      toLower n = toLower "HotKeyEnable" ∨ toLower m = toLower "HotKeyEnable" := by
    intro n m j hn hm h1 h2
    have hj := self n j hn h1
    have hm2 := other m j hm h2
    have hm3 : c.isMappedTo m input = true := by
      rw [isMappedTo_iff] at hm2 ⊢
      rw [← hj]
      exact hm2
    rcases hok with hfree | hmapped | hhot
    · rw [isMappedTo_of_getMappedTo_nil m input c hfree] at hm3
      simp at hm3
    · rcases h name m input hmapped hm3 with h3 | h3 | h3
      · exact absurd h3.symm hm
      · exact Or.inl (hn.trans h3)
      · exact Or.inr h3
    · exact Or.inl (hn.trans hhot)
  intro n1 n2 j h1 h2
  by_cases hk1 : toLower n1 = toLower name
  · by_cases hk2 : toLower n2 = toLower name
    · exact Or.inl (hk1.trans hk2.symm)
    · exact Or.inr (clash n1 n2 j hk1 hk2 h1 h2)
  · by_cases hk2 : toLower n2 = toLower name
    · exact Or.inr ((clash n2 n1 j hk2 hk1 h2 h1).symm)
    · exact h n1 n2 j (other _ _ hk1 h1) (other _ _ hk2 h2)

end InputConfig

theorem assign_unique (input : Input) (i : Nat) (s : GuiInputConfig) (h : s.target.Unique) :
    (assign input i s).2.target.Unique := by
  unfold assign
  split
  · exact h
  · rename_i hc
    apply InputConfig.unique_mapInput _ _ _ h
    by_cases h1 : s.target.getMappedTo input = []
    · exact Or.inl h1
    · by_cases h2 : s.target.isMappedTo (entry i).name input = true
      · exact Or.inr (Or.inl h2)
      · by_cases h3 : (entry i).name = "HotKeyEnable"
        · exact Or.inr (Or.inr (by rw [h3]))
        · exact absurd ⟨List.length_pos.mpr h1, by simpa using h2, h3⟩ hc

theorem inputHandler_unique (i config : Nat) (input : Input) (s : GuiInputConfig)
    (h : s.target.Unique) : (inputHandler i config input s).2.target.Unique := by
  unfold inputHandler
  split
  · exact h
  · split
    · split
      · exact h
      · exact h
    · split
      · split
        · exact h
        · exact h
      · split
        · exact h
        · have ha := assign_unique s.mHeldInput i { s with mHoldingInput := false } h
          dsimp only
          generalize assign s.mHeldInput i { s with mHoldingInput := false } = p at ha
          rcases p with ⟨_ | _, s2⟩
          · exact ha
          · simp only [rowDone_target]
            exact ha

theorem update_unique (deltaTime : Int) (s : GuiInputConfig) (h : s.target.Unique) :
    (update deltaTime s).target.Unique := by
  unfold update
  split
  · dsimp only
    split
    · rw [rowDone_target]
      exact InputConfig.unique_unmapInput _ _ h
    · split
      · exact h
      · exact h
  · exact h

theorem step_unique (e : Event) (s : GuiInputConfig) (h : s.target.Unique) :
    (step s e).target.Unique := by
  cases e with
  | input row config input => exact inputHandler_unique row config input s h
  | tick deltaTime => exact update_unique deltaTime s h
  | scroll row =>
    simp only [step]
    split
    · exact h
    · exact h

theorem run_unique (es : List Event) :
    ∀ s : GuiInputConfig, s.target.Unique → (run s es).target.Unique := by
  induction es with
  | nil => intro s h; exact h
  | cons e rest ih =>
    intro s h
    simp only [run, List.foldl_cons]
    exact ih _ (step_unique e s h)

/-- C7: in every state reached from a dialog opened in configure-all mode (the mapping is
cleared by the constructor) by any sequence of input events, `update` calls and cursor moves of
the list, two different actions of the table are bound to the same input only if one of the two
is HotKeyEnable. -/
theorem no_shared_binding (mTargetConfig : Nat) (target : InputConfig) (heldInput : Input)
    (heldTime : Int) (heldInputId : Nat) (es : List Event) (i j : Nat) (input : Input)
    (hi : i < inputCount) (hj : j < inputCount)
    (h1 : (run (init mTargetConfig target true heldInput heldTime heldInputId) es).target.isMappedTo
      (entry i).name input = true)
    (h2 : (run (init mTargetConfig target true heldInput heldTime heldInputId) es).target.isMappedTo
      (entry j).name input = true) :
    i = j ∨ (entry i).name = "HotKeyEnable" ∨ (entry j).name = "HotKeyEnable" := by
  have h0 : (init mTargetConfig target true heldInput heldTime heldInputId).target.Unique := by
    simp only [init, setPress, if_true]
    exact InputConfig.unique_clear target
  rcases run_unique es _ h0 (entry i).name (entry j).name input h1 h2 with h | h | h
  · exact Or.inl (entry_key_injective i hi j hj h)
  · exact Or.inr (Or.inl ((entry_name_hotkey i hi).mpr ((entry_key_hotkey i hi).mp h)))
  · exact Or.inr (Or.inr ((entry_name_hotkey j hj).mpr ((entry_key_hotkey j hj).mp h)))

/-- Evaluation of `no_shared_binding`: button 3 is bound to Up and then to HotKeyEnable. -/
theorem no_shared_binding_witness :
    ((run (init 7 ⟨[]⟩ true (buttonDown 0) 0 0)
        [.input 0 7 (buttonDown 3), .input 0 7 (buttonUp 3),
         .input 24 7 (buttonDown 3), .input 24 7 (buttonUp 3)]).target.isMappedTo
        (entry 0).name (buttonDown 3) = true
      ∧ (run (init 7 ⟨[]⟩ true (buttonDown 0) 0 0)
        [.input 0 7 (buttonDown 3), .input 0 7 (buttonUp 3),
         .input 24 7 (buttonDown 3), .input 24 7 (buttonUp 3)]).target.isMappedTo
        (entry 24).name (buttonDown 3) = true)
    ∧ ((0 : Nat) = 24 ∨ (entry 0).name = "HotKeyEnable" ∨ (entry 24).name = "HotKeyEnable") :=
  ⟨⟨by decide, by decide⟩,
   no_shared_binding 7 ⟨[]⟩ (buttonDown 0) 0 0
     [.input 0 7 (buttonDown 3), .input 0 7 (buttonUp 3),
      .input 24 7 (buttonDown 3), .input 24 7 (buttonUp 3)] 0 24 (buttonDown 3)
     (by decide) (by decide) (by decide) (by decide)⟩

end EmulationStation

namespace EmulationStation
open GuiInputConfig

/-! ## The hold time stays below the threshold -/

theorem not_mem_set_of_not_mem (l : List MappingText) (i : Nat) (x y : MappingText)
    (hl : y ∉ l) (hx : y ≠ x) : y ∉ l.set i x := by
  intro hmem
  rcases List.mem_or_eq_of_mem_set hmem with h | h
  · exact hl h
  · exact hx h

theorem rowDone_heldBelowThreshold (s : GuiInputConfig) (h : s.HeldBelowThreshold) :
    (rowDone s).HeldBelowThreshold := by
  rw [rowDone_eq]
  split_ifs
  · exact ⟨h.1, fun n => not_mem_set_of_not_mem _ _ _ _ (h.2 n) (by simp)⟩
  · exact h
  · exact h

theorem assign_heldBelowThreshold (input : Input) (i : Nat) (s : GuiInputConfig)
    (h : s.HeldBelowThreshold) : (assign input i s).2.HeldBelowThreshold := by
  unfold assign
  split
  · exact ⟨h.1, fun n => not_mem_set_of_not_mem _ _ _ _ (h.2 n) (by simp)⟩
  · exact ⟨h.1, fun n => not_mem_set_of_not_mem _ _ _ _ (h.2 n) (by simp)⟩

theorem inputHandler_heldBelowThreshold (i config : Nat) (input : Input) (s : GuiInputConfig)
    (h : s.HeldBelowThreshold) : (inputHandler i config input s).2.HeldBelowThreshold := by
  unfold inputHandler
  split
  · exact h
  · split
    · split
      · exact ⟨h.1, fun n => not_mem_set_of_not_mem _ _ _ _ (h.2 n) (by simp)⟩
      · exact h
    · split
      · split
        · exact h
        · exact ⟨fun _ => ⟨le_refl _, by simp [HOLD_TO_SKIP_MS]⟩, h.2⟩
      · split
        · exact h
        · have h1 : ({ s with mHoldingInput := false } : GuiInputConfig).HeldBelowThreshold :=
            ⟨fun hf => by simp at hf, h.2⟩
          have ha := assign_heldBelowThreshold s.mHeldInput i _ h1
          dsimp only
          generalize assign s.mHeldInput i { s with mHoldingInput := false } = p at ha
          rcases p with ⟨_ | _, s2⟩
          · exact ha
          · exact rowDone_heldBelowThreshold _ ha

theorem update_heldBelowThreshold (deltaTime : Int) (s : GuiInputConfig)
    (hd : 0 ≤ deltaTime)
    (hfit : s.mConfiguringRow = true → s.mHoldingInput = true →
      (entry s.mHeldInputId).skippable = true →
      wrapInt (s.mHeldTime + deltaTime) = s.mHeldTime + deltaTime)
    (h : s.HeldBelowThreshold) :
    (update deltaTime s).HeldBelowThreshold := by
  by_cases hguard : s.mConfiguringRow = true ∧ s.mHoldingInput = true
      ∧ (entry s.mHeldInputId).skippable = true
  · obtain ⟨hcfg, hhold, hskip⟩ := hguard
    have hb := h.1 hhold
    have hw := hfit hcfg hhold hskip
    simp only [HOLD_TO_SKIP_MS] at hb
    by_cases hge : 1000 ≤ s.mHeldTime + deltaTime
    · rw [update_skip deltaTime s hcfg hhold hskip (by rw [hw]; exact hge), skipped]
      apply rowDone_heldBelowThreshold
      exact ⟨fun hf => by simp at hf,
        fun n => not_mem_set_of_not_mem _ _ _ _ (h.2 n) (by simp)⟩
    · rw [update_no_skip deltaTime s hcfg hhold hskip hb.1 hd (by omega)]
      refine ⟨fun _ => ?_, h.2⟩
      simp only [HOLD_TO_SKIP_MS]
      constructor <;> omega
  · have : update deltaTime s = s := by
      unfold update
      rw [if_neg hguard]
    rw [this]
    exact h

theorem run_heldBelowThreshold (es : List Event) :
    ∀ s : GuiInputConfig, (∀ e ∈ es, e.nonNegative = true) → noOverflow s es = true →
      s.HeldBelowThreshold → (run s es).HeldBelowThreshold := by
  induction es with
  | nil => intro s _ _ h; exact h
  | cons e rest ih =>
    intro s hnn hfit h
    simp only [run, List.foldl_cons]
    simp only [noOverflow, Bool.and_eq_true] at hfit
    refine ih _ (fun x hx => hnn x (List.mem_cons_of_mem _ hx)) hfit.2 ?_
    have he := hnn e (List.mem_cons_self _ _)
    have hfit1 := hfit.1
    cases e with
    | input row config input => exact inputHandler_heldBelowThreshold row config input s h
    | tick deltaTime =>
      refine update_heldBelowThreshold deltaTime s (by simpa [Event.nonNegative] using he)
        ?_ h
      intro hcfg hhold hskip
      simpa [hcfg, hhold, hskip] using hfit1
    | scroll row =>
      simp only [step]
      split
      · exact h
      · exact h

theorem init_heldBelowThreshold (mTargetConfig : Nat) (target : InputConfig)
    (reconfigureAll : Bool) (heldInput : Input) (heldTime : Int) (heldInputId : Nat) :
    (init mTargetConfig target reconfigureAll heldInput heldTime heldInputId).HeldBelowThreshold := by
  have hrep : ∀ n, MappingText.holdFor n ∉ List.replicate inputCount MappingText.notDefined := by
    intro n hmem
    have := List.eq_of_mem_replicate hmem
    simp at this
  unfold init
  dsimp only
  split
  · exact ⟨fun hf => by simp [setPress] at hf,
      fun n => not_mem_set_of_not_mem _ _ _ _ (hrep n) (by simp)⟩
  · exact ⟨fun hf => by simp at hf, hrep⟩

/-- C10 (as amended): in every state reached from a freshly constructed dialog by input events,
cursor moves of the list and `update` calls with non-negative frame times none of which
overflows the `int` sum `mHeldTime + deltaTime`, a held input has a hold time in `[0, 1000)`.
Hence in an `update` call that neither overflows nor skips, the whole seconds before and after
are both 0 and the call only advances the hold time; the countdown text "Hold for Ns to skip" is
never set, and no row of a reached state shows it. -/
theorem held_time_below_threshold (mTargetConfig : Nat) (target : InputConfig)
    (reconfigureAll : Bool) (heldInput : Input) (heldTime : Int) (heldInputId : Nat)
    (es : List Event) (s : GuiInputConfig)
    (hs : s = run (init mTargetConfig target reconfigureAll heldInput heldTime heldInputId) es)
    (hnn : ∀ e ∈ es, e.nonNegative = true)
    (hfit : noOverflow (init mTargetConfig target reconfigureAll heldInput heldTime heldInputId)
      es = true) :
    (s.mHoldingInput = true → 0 ≤ s.mHeldTime ∧ s.mHeldTime < HOLD_TO_SKIP_MS)
    ∧ (∀ deltaTime : Int, 0 ≤ deltaTime → s.mConfiguringRow = true → s.mHoldingInput = true →
        (entry s.mHeldInputId).skippable = true →
        s.mHeldTime + deltaTime ≤ INT_MAX →
        wrapInt (s.mHeldTime + deltaTime) < HOLD_TO_SKIP_MS →
        s.mHeldTime.tdiv 1000 = 0 ∧ (wrapInt (s.mHeldTime + deltaTime)).tdiv 1000 = 0
        ∧ update deltaTime s = { s with mHeldTime := s.mHeldTime + deltaTime })
    ∧ (∀ n, MappingText.holdFor n ∉ s.mMappings) := by
  have hinv : s.HeldBelowThreshold := by
    rw [hs]
    exact run_heldBelowThreshold es _ hnn hfit (init_heldBelowThreshold _ _ _ _ _ _)
  refine ⟨hinv.1, ?_, hinv.2⟩
  intro deltaTime hd hcfg hhold hskip hmax hlt
  have hb := hinv.1 hhold
  have hw : wrapInt (s.mHeldTime + deltaTime) = s.mHeldTime + deltaTime :=
    wrapInt_of_inRange _ (by omega) hmax
  rw [hw] at hlt ⊢
  simp only [HOLD_TO_SKIP_MS] at hb hlt
  exact ⟨tdiv_thousand_eq_zero _ hb.1 hb.2, tdiv_thousand_eq_zero _ (by omega) hlt,
    update_no_skip deltaTime s hcfg hhold hskip hb.1 hd hlt⟩

/-- Evaluation of `held_time_below_threshold`: button 9 is pressed on row 4 (Start) and held
for 900 ms over two frames. -/
theorem held_time_below_threshold_witness :
    (run freshAll [.input 4 7 (buttonDown 9), .tick 500, .tick 400]).mHoldingInput = true
    ∧ (0 ≤ (run freshAll [.input 4 7 (buttonDown 9), .tick 500, .tick 400]).mHeldTime
      ∧ (run freshAll [.input 4 7 (buttonDown 9), .tick 500, .tick 400]).mHeldTime
          < HOLD_TO_SKIP_MS)
    ∧ (run freshAll [.input 4 7 (buttonDown 9), .tick 500, .tick 400]).mHeldTime = 900 :=
  ⟨by decide,
   (held_time_below_threshold 7 ⟨[]⟩ true (buttonDown 0) 0 0
      [.input 4 7 (buttonDown 9), .tick 500, .tick 400]
      (run freshAll [.input 4 7 (buttonDown 9), .tick 500, .tick 400]) rfl
      (by decide) (by decide)).1 (by decide),
   by decide⟩

/-- C10 (as stated) fails when the `int` hold time overflows: on a fresh dialog button 9 is
pressed on row 4 (Start, skippable) and held over the frames 1 ms and 2147483647 ms.  Both frame
times are non-negative, yet afterwards the input is still held with hold time -2147483648, and
the second `update` has taken the countdown branch: row 4 shows "Hold for 2147484s to skip". -/
theorem held_time_overflow :
    (∀ e ∈ [Event.input 4 7 (buttonDown 9), .tick 1, .tick 2147483647],
      e.nonNegative = true)
    ∧ (run freshAll [.input 4 7 (buttonDown 9), .tick 1, .tick 2147483647]).mHoldingInput
        = true
    ∧ (run freshAll [.input 4 7 (buttonDown 9), .tick 1, .tick 2147483647]).mHeldTime
        = -2147483648
    ∧ (run freshAll [.input 4 7 (buttonDown 9), .tick 1, .tick 2147483647]).mMappings[4]?
        = some (MappingText.holdFor 2147484) := by
  decide

end EmulationStation
